import Mathlib

/-!
Shallow embedding of `lucat1/sshauth` (`sshauth.go`).

Bytes are modelled as `Nat` values; the interactive byte stream of a session
is a finite list of input bytes, and exhausting that list models a read error
on the underlying stream (`s.Read` returning an error, e.g. on disconnect).
Output written back to the stream is collected as a list of bytes (for the raw
reader) and as a list of `Event`s (for the session handler).
-/

/-- The apostrophe character, used to build message strings. -/
def apos : String := String.singleton (Char.ofNat 39)

/-- Go `string(bytes)` conversion for a byte buffer. -/
def strOfBytes (l : List Nat) : String := String.mk (l.map Char.ofNat)

/-- The fixed 62-character alphanumeric alphabet (`letters`, sshauth.go:161). -/
def letters : String := "abcdefghijklmnopqrstuvwxyzABCDEFGHIJKLMNOPQRSTUVWXYZ1234567890"

/-- `[]byte(letters)`: the alphabet as byte values. -/
def lettersBytes : List Nat := letters.toList.map Char.toNat

/-- Result of `readN` (sshauth.go:67): the fixed-size buffer `res`, the count
`in` of accepted bytes, the bytes written back to the stream, and the part of
the input stream not yet consumed. -/
structure ReadRes where
  res : List Nat
  count : Nat
  out : List Nat
  rest : List Nat
deriving Repr, DecidableEq

/-- The loop body of `readN` (sshauth.go:70-107).  Byte 127 is delete/backspace,
byte 13 is carriage return; `onlyIn` is the optional allowed-character set and
`write` the echo flag.  An empty remaining input models a stream read error. -/
def readNAux (l : Nat) (onlyIn : List Nat) (write : Bool) :
    List Nat → List Nat → Nat → List Nat → ReadRes
  | [], res, cnt, out => ⟨res, cnt, out, []⟩
  | b :: rest, res, cnt, out =>
    if b = 127 then
      if 0 < cnt then
        readNAux l onlyIn write rest (res.set (cnt - 1) 32) (cnt - 1)
          (out ++ (if write then [8, 32, 8] else []))
      else
        readNAux l onlyIn write rest res cnt out
    else if b = 13 then
      ⟨res, cnt, out ++ [10, 13], rest⟩
    else if 0 < onlyIn.length ∧ b ∉ onlyIn then
      readNAux l onlyIn write rest res cnt out
    else if cnt < l then
      readNAux l onlyIn write rest (res.set cnt b) (cnt + 1)
        (out ++ (if write then [b] else []))
    else
      readNAux l onlyIn write rest res cnt out

/-- `readN(s, l, onlyIn, write)` (sshauth.go:67): the buffer starts as `l`
zero bytes and the accepted count at zero. -/
def readN (input : List Nat) (l : Nat) (onlyIn : List Nat) (write : Bool) : ReadRes :=
  readNAux l onlyIn write input (List.replicate l 0) 0 []

/-- Specification-level accepted count: the number of filter-passing bytes
accepted (appends minus backspace erasures, clamped at zero, truncated at `l`)
before carriage-return termination or end of stream (§8 of the spec). -/
def specCount (l : Nat) (onlyIn : List Nat) : List Nat → Nat → Nat
  | [], n => n
  | b :: rest, n =>
    if b = 127 then specCount l onlyIn rest (n - 1)
    else if b = 13 then n
    else if 0 < onlyIn.length ∧ b ∉ onlyIn then specCount l onlyIn rest n
    else if n < l then specCount l onlyIn rest (n + 1)
    else specCount l onlyIn rest n

lemma readNAux_count_le (l : Nat) (onlyIn : List Nat) (write : Bool) :
    ∀ (input res : List Nat) (cnt : Nat) (out : List Nat), cnt ≤ l →
      (readNAux l onlyIn write input res cnt out).count ≤ l := by
  intro input
  induction input with
  | nil => intro res cnt out h; simpa [readNAux] using h
  | cons b rest ih =>
    intro res cnt out h
    simp only [readNAux]
    split_ifs with h1 h2 h3 h4 h5 <;> first
      | exact ih _ _ _ (Nat.le_trans (Nat.sub_le _ _) h)
      | exact ih _ _ _ h
      | simpa using h
      | exact ih _ _ _ h5
      | exact ih _ _ _ (by omega)

lemma readNAux_count_eq_specCount (l : Nat) (onlyIn : List Nat) (write : Bool) :
    ∀ (input res : List Nat) (cnt : Nat) (out : List Nat),
      (readNAux l onlyIn write input res cnt out).count = specCount l onlyIn input cnt := by
  intro input
  induction input with
  | nil => intro res cnt out; simp [readNAux, specCount]
  | cons b rest ih =>
    intro res cnt out
    simp only [readNAux, specCount]
    split_ifs with h1 h2 h3 h4 h5 <;> first
      | rfl
      | exact ih _ _ _
      | (rw [ih]; congr 1; omega)

lemma readNAux_res_length (l : Nat) (onlyIn : List Nat) (write : Bool) :
    ∀ (input res : List Nat) (cnt : Nat) (out : List Nat),
      (readNAux l onlyIn write input res cnt out).res.length = res.length := by
  intro input
  induction input with
  | nil => intro res cnt out; simp [readNAux]
  | cons b rest ih =>
    intro res cnt out
    simp only [readNAux]
    split_ifs <;> simp [ih]

lemma readN_count_le (input : List Nat) (l : Nat) (onlyIn : List Nat) (write : Bool) :
    (readN input l onlyIn write).count ≤ l :=
  readNAux_count_le l onlyIn write input _ 0 [] (Nat.zero_le l)

lemma readN_count_eq_specCount (input : List Nat) (l : Nat) (onlyIn : List Nat)
    (write : Bool) : (readN input l onlyIn write).count = specCount l onlyIn input 0 :=
  readNAux_count_eq_specCount l onlyIn write input _ 0 []

lemma readN_res_length (input : List Nat) (l : Nat) (onlyIn : List Nat) (write : Bool) :
    (readN input l onlyIn write).res.length = l := by
  simpa using readNAux_res_length l onlyIn write input (List.replicate l 0) 0 []

lemma readNAux_cr (l : Nat) (onlyIn : List Nat) (write : Bool) (rest res : List Nat)
    (cnt : Nat) (out : List Nat) :
    readNAux l onlyIn write (13 :: rest) res cnt out = ⟨res, cnt, out ++ [10, 13], rest⟩ := by
  simp [readNAux]

lemma readNAux_backspace_pos (l : Nat) (onlyIn : List Nat) (write : Bool)
    (rest res : List Nat) (cnt : Nat) (out : List Nat) (h : 0 < cnt) :
    readNAux l onlyIn write (127 :: rest) res cnt out =
      readNAux l onlyIn write rest (res.set (cnt - 1) 32) (cnt - 1)
        (out ++ (if write then [8, 32, 8] else [])) := by
  simp [readNAux, h]

lemma readNAux_backspace_zero (l : Nat) (onlyIn : List Nat) (write : Bool)
    (rest res : List Nat) (out : List Nat) :
    readNAux l onlyIn write (127 :: rest) res 0 out =
      readNAux l onlyIn write rest res 0 out := by
  simp [readNAux]

/-- Buffer-slot invariant: every position at or beyond the accepted count holds
either the zero byte (never written, from the initial `make([]byte, l)`) or a
space (left behind by a backspace erasure). -/
def padInv (res : List Nat) (cnt : Nat) : Prop :=
  ∀ j, cnt ≤ j → res[j]? = some 0 ∨ res[j]? = some 32 ∨ res[j]? = none

lemma padInv_set_append {res : List Nat} {cnt : Nat} (b : Nat) (h : padInv res cnt) :
    padInv (res.set cnt b) (cnt + 1) := by
  intro j hj
  rw [List.getElem?_set_ne (by omega)]
  exact h j (by omega)

lemma padInv_set_backspace {res : List Nat} {cnt : Nat} (hc : 0 < cnt)
    (h : padInv res cnt) : padInv (res.set (cnt - 1) 32) (cnt - 1) := by
  intro j hj
  rcases Nat.eq_or_lt_of_le hj with hj' | hj'
  · by_cases hr : cnt - 1 < res.length
    · rw [← hj']
      rw [List.getElem?_set_self hr]
      exact Or.inr (Or.inl rfl)
    · rw [← hj']
      right; right
      apply List.getElem?_eq_none
      simpa using (by omega : res.length ≤ cnt - 1)
  · rw [List.getElem?_set_ne (by omega)]
    exact h j (by omega)

lemma readNAux_padInv (l : Nat) (onlyIn : List Nat) (write : Bool) :
    ∀ (input res : List Nat) (cnt : Nat) (out : List Nat), padInv res cnt →
      padInv (readNAux l onlyIn write input res cnt out).res
        (readNAux l onlyIn write input res cnt out).count := by
  intro input
  induction input with
  | nil => intro res cnt out h; simpa [readNAux] using h
  | cons b rest ih =>
    intro res cnt out h
    simp only [readNAux]
    split_ifs with h1 h2 h3 h4 h5 <;> first
      | exact ih _ _ _ (padInv_set_backspace h2 h)
      | exact ih _ _ _ (padInv_set_append b h)
      | exact ih _ _ _ h
      | simpa using h

lemma readN_padInv (input : List Nat) (l : Nat) (onlyIn : List Nat) (write : Bool) :
    padInv (readN input l onlyIn write).res (readN input l onlyIn write).count := by
  refine readNAux_padInv l onlyIn write input _ 0 [] ?_
  intro j _
  by_cases hj : j < l
  · simp [List.getElem?_replicate, hj]
  · right; right
    exact List.getElem?_eq_none (by simpa using hj)

/-- `WELCOME_BODY` (sshauth.go:48) with the `%s` substitution applied. -/
def WELCOME_BODY (addr : String) : String :=
  "Welcome.\nSending a mail to " ++ addr ++ ", do you accept? (y/N): "

/-- `TOKEN_BODY` (sshauth.go:50), typo included. -/
def TOKEN_BODY : String := "Enter the token you recieved by mail: "

/-- `TOKEN_FAILED` (sshauth.go:51). -/
def TOKEN_FAILED : String := "Invalid token. Verification failed.\n"

/-- `TOKEN_RETRY` (sshauth.go:52) with the `%d` substitution applied. -/
def TOKEN_RETRY (n : Nat) : String :=
  "Invalid token. Please, try again (you have " ++ toString n ++ " more retries)\n"

/-- `ALREADY_REGISTERED` (sshauth.go:53) with the `%s` substitution applied. -/
def ALREADY_REGISTERED (url : String) : String :=
  "You" ++ apos ++ "re already registered.\nYou can authenticate over at\n\t" ++ url ++
    "\nto manage your account. Bye!"

/-- `PASWORD_RULES` (sshauth.go:54) with the `%d` substitutions applied. -/
def PASWORD_RULES (pmin pmax : Nat) : String :=
  "Please, enter your password twice. It must respect the following rules:\n" ++
    "- The length must be between " ++ toString pmin ++ " and " ++ toString pmax ++
    " (included)\n- It must contain at least one letter and one digit\n"

/-- `PASSWORD_FAILED` (sshauth.go:55). -/
def PASSWORD_FAILED : String := "Password attempts failed. Logging out."

/-- `REGISTRATION_SUCCESS` (sshauth.go:56) with the `%s` substitution applied.
This constant is declared in the source but never written to any session. -/
def REGISTRATION_SUCCESS (url : String) : String :=
  "You are now registered! You can authenticate over at\n\t" ++ url ++
    "\nto manage your account. Bye!"

/-- One terminal message written by the session handler, tagged by call site. -/
inductive Msg where
  | welcome (addr : String)
  | bye
  | mailFailed
  | tokenBody
  | tokenRetry (n : Nat)
  | tokenFailed
  | alreadyRegistered (url : String)
  | notRegistered
  | passwordRules (pmin pmax : Nat)
  | passwordPrompt
  | reason (s : String)
  | passwordFailed
  | repeatPrompt
  | registering
deriving Repr, DecidableEq

/-- The literal string each message renders to on the session stream. -/
def renderMsg : Msg → String
  | Msg.welcome addr => WELCOME_BODY addr
  | Msg.bye => "Bye!\n"
  | Msg.mailFailed => "Could not send mail\n"
  | Msg.tokenBody => TOKEN_BODY
  | Msg.tokenRetry n => TOKEN_RETRY n
  | Msg.tokenFailed => TOKEN_FAILED
  | Msg.alreadyRegistered url => ALREADY_REGISTERED url
  | Msg.notRegistered =>
      "You" ++ apos ++ "re not registered. Proceeding with the registration process\n"
  | Msg.passwordRules pmin pmax => PASWORD_RULES pmin pmax
  | Msg.passwordPrompt => "Password: "
  | Msg.reason s => s ++ "\n"
  | Msg.passwordFailed => PASSWORD_FAILED
  | Msg.repeatPrompt => "Repeat your password: "
  | Msg.registering => "Registering user with the given password\n"

/-- Observable step of a session: a terminal write, the LDAP existence search
(`exists`, sshauth.go:196), a call to `register` (sshauth.go:212), the two
remote mutations inside `register` (`l.Add` and `l.PasswordModify`), or a
`log.Fatalf` that kills the whole process. -/
inductive Event where
  | write (m : Msg)
  | queryExists (uid : String)
  | registerCall (uid mail passwd : String)
  | addOp (dn email : String)
  | passwordSetOp (dn passwd : String)
  | fatal
deriving Repr, DecidableEq

/-- The configuration fields of `Options` (sshauth.go:19) that the session
handler reads; `pattern` models the compiled `passwordRegexp.Match` on a byte
buffer, and `url` the string `options.LldapURI.JoinPath("/login").String()`. -/
structure Config where
  tokenLength : Nat
  toSuffix : String
  scope : String
  pmin : Nat
  pmax : Nat
  pattern : List Nat → Bool
  url : String

/-- Outcomes of the external collaborators during one session: mail send,
LDAP bind, the existence search (`none` models a search error), and the two
mutations inside `register`. -/
structure World where
  mailOk : Bool
  bindOk : Bool
  userExists : Option Bool
  addOk : Bool
  pwModOk : Bool

/-- Result of `readPassword` (sshauth.go:173): `ok` plus either the accepted
password (the whole `PasswordMax`-byte buffer, as in `string(passwd)`) or the
rejection reason; `rest` is the unconsumed input stream. -/
structure PwRead where
  ok : Bool
  ans : String
  rest : List Nat

/-- `readPassword` (sshauth.go:173-182): reads with length `PasswordMax`, the
alphanumeric filter and echo off, rejects a count below `PasswordMin` as too
short, then rejects a buffer failing the pattern, and otherwise accepts. -/
def readPassword (cfg : Config) (input : List Nat) : PwRead :=
  if (readN input cfg.pmax lettersBytes false).count < cfg.pmin then
    ⟨false, "Password is too short", (readN input cfg.pmax lettersBytes false).rest⟩
  else if cfg.pattern (readN input cfg.pmax lettersBytes false).res = false then
    ⟨false, "Password does not comply with the rules",
      (readN input cfg.pmax lettersBytes false).rest⟩
  else
    ⟨true, strOfBytes (readN input cfg.pmax lettersBytes false).res,
      (readN input cfg.pmax lettersBytes false).rest⟩

/-- The confirmation-phase outcome (sshauth.go:310-315): a read that succeeds
but differs from the retained first password is turned into a failure with the
mismatch message. -/
def confirmOutcome (cfg : Config) (passwd : String) (input : List Nat) : Bool × String :=
  if (readPassword cfg input).ok ∧ (readPassword cfg input).ans ≠ passwd then
    (false, "Passwords don" ++ apos ++ "t match")
  else
    ((readPassword cfg input).ok, (readPassword cfg input).ans)

/-- One token-verification read (sshauth.go:260): `TokenLength` bytes, no
character filter, echo on. -/
def tokenAttempt (cfg : Config) (input : List Nat) : ReadRes :=
  readN input cfg.tokenLength [] true

/-- The failure condition of a token attempt (sshauth.go:261): a short read or
a buffer that is not byte-for-byte the issued token. -/
def tokenMismatch (cfg : Config) (tok : List Nat) (input : List Nat) : Prop :=
  (tokenAttempt cfg input).count ≠ cfg.tokenLength ∨ (tokenAttempt cfg input).res ≠ tok

instance (cfg : Config) (tok : List Nat) (input : List Nat) :
    Decidable (tokenMismatch cfg tok input) := by
  unfold tokenMismatch; infer_instance

/-- The token verification loop (sshauth.go:257-272), indexed by the current
value of the Go counter `i` (entered by the handler at 3, and `i` stays
positive until the loop exits, so the `0` case is never reached from the
handler).  On failure `i` is decremented; a decremented value of `0` prints
`TOKEN_FAILED` and gives permanent failure, otherwise the retry message shows
the remaining count.  Returns the emitted events and, on success, the
unconsumed input. -/
def tokenLoop (cfg : Config) (tok : List Nat) : Nat → List Nat → List Event × Option (List Nat)
  | 0, _ => ([], none)
  | i + 1, input =>
    if tokenMismatch cfg tok input then
      if i = 0 then
        ([Event.write Msg.tokenBody, Event.write Msg.tokenFailed], none)
      else
        (Event.write Msg.tokenBody :: Event.write (Msg.tokenRetry i) ::
            (tokenLoop cfg tok i (tokenAttempt cfg input).rest).1,
          (tokenLoop cfg tok i (tokenAttempt cfg input).rest).2)
    else
      ([Event.write Msg.tokenBody], some (tokenAttempt cfg input).rest)

/-- Phase one of password collection (sshauth.go:292-307), indexed by the Go
counter `i` (an `int`, entered at 3).  Every attempt decrements `i`; on a
failed attempt the reason is printed and, if the decremented counter is at or
below zero, `PASSWORD_FAILED` is printed and the session ends.  On success the
accepted password, the unconsumed input and the decremented counter are
returned. -/
def phase1 (cfg : Config) (input : List Nat) (i : Int) :
    List Event × Option (String × List Nat × Int) :=
  if (readPassword cfg input).ok then
    ([Event.write Msg.passwordPrompt],
      some ((readPassword cfg input).ans, (readPassword cfg input).rest, i - 1))
  else if h : i - 1 ≤ 0 then
    ([Event.write Msg.passwordPrompt, Event.write (Msg.reason (readPassword cfg input).ans),
        Event.write Msg.passwordFailed], none)
  else
    (Event.write Msg.passwordPrompt :: Event.write (Msg.reason (readPassword cfg input).ans) ::
        (phase1 cfg (readPassword cfg input).rest (i - 1)).1,
      (phase1 cfg (readPassword cfg input).rest (i - 1)).2)
termination_by i.toNat
decreasing_by all_goals (simp_wf; omega)

/-- Phase two of password collection (sshauth.go:308-325): same shared counter
`i`, confirmation outcome from `confirmOutcome`; a successful matching entry
exits the loop, every attempt decrements `i`, and a failed attempt with the
decremented counter at or below zero prints `PASSWORD_FAILED` and ends the
session. -/
def phase2 (cfg : Config) (passwd : String) (input : List Nat) (i : Int) :
    List Event × Option (List Nat × Int) :=
  if (confirmOutcome cfg passwd input).1 then
    ([Event.write Msg.repeatPrompt], some ((readPassword cfg input).rest, i - 1))
  else if h : i - 1 ≤ 0 then
    ([Event.write Msg.repeatPrompt, Event.write (Msg.reason (confirmOutcome cfg passwd input).2),
        Event.write Msg.passwordFailed], none)
  else
    (Event.write Msg.repeatPrompt ::
        Event.write (Msg.reason (confirmOutcome cfg passwd input).2) ::
        (phase2 cfg passwd (readPassword cfg input).rest (i - 1)).1,
      (phase2 cfg passwd (readPassword cfg input).rest (i - 1)).2)
termination_by i.toNat
decreasing_by all_goals (simp_wf; omega)

/-- The two-phase password collection (sshauth.go:292-325): phase one entered
with the shared budget at 3, phase two continuing with the counter phase one
left; on success the retained phase-one password is the confirmed password. -/
def collectConfirmed (cfg : Config) (input : List Nat) :
    List Event × Option (String × List Nat × Int) :=
  match (phase1 cfg input 3).2 with
  | none => ((phase1 cfg input 3).1, none)
  | some (passwd, rest, i1) =>
    ((phase1 cfg input 3).1 ++ (phase2 cfg passwd rest i1).1,
      (phase2 cfg passwd rest i1).2.map fun p => (passwd, p.1, p.2))

/-- The remote mutations of `register` (sshauth.go:212-233): an `Add` of the
entry `uid={uid},{scope}` with the mail attribute, then, only if the add
succeeded, the extended password-modify operation on the same DN. -/
def registerOps (cfg : Config) (addOk : Bool) (uid email passwd : String) : List Event :=
  Event.addOp ("uid=" ++ uid ++ "," ++ cfg.scope) email ::
    (if addOk then [Event.passwordSetOp ("uid=" ++ uid ++ "," ++ cfg.scope) passwd] else [])

/-- The consent filter `[]byte{'y', 'n'}` (sshauth.go:245). -/
def consentFilter : List Nat := [121, 110]

/-- The per-session `ssh.Handle` handler (sshauth.go:239-331) as the list of
observable events of one session, parameterised by the configuration, the peer
identity, the token produced by `randomString`, the collaborator outcomes and
the input byte stream. -/
def handler (cfg : Config) (user : String) (tok : List Nat) (w : World)
    (input : List Nat) : List Event :=
  Event.write (Msg.welcome (user ++ cfg.toSuffix)) ::
  (if (readN input 1 consentFilter true).count < 1 ∨
      (readN input 1 consentFilter true).res.headD 0 ≠ 121 then
    [Event.write Msg.bye]
  else if w.mailOk = false then
    [Event.write Msg.mailFailed]
  else
    (tokenLoop cfg tok 3 (readN input 1 consentFilter true).rest).1 ++
    (match (tokenLoop cfg tok 3 (readN input 1 consentFilter true).rest).2 with
     | none => []
     | some rest2 =>
       if w.bindOk = false then
         [Event.fatal]
       else
         Event.queryExists user ::
         (match w.userExists with
          | none => [Event.fatal]
          | some true => [Event.write (Msg.alreadyRegistered cfg.url)]
          | some false =>
            Event.write Msg.notRegistered ::
            Event.write (Msg.passwordRules cfg.pmin cfg.pmax) ::
            ((collectConfirmed cfg rest2).1 ++
             (match (collectConfirmed cfg rest2).2 with
              | none => []
              | some (passwd, _, _) =>
                Event.write Msg.registering ::
                Event.registerCall user (user ++ cfg.toSuffix) passwd ::
                (registerOps cfg w.addOk user (user ++ cfg.toSuffix) passwd ++
                 (if w.addOk && w.pwModOk then
                    [Event.write (Msg.alreadyRegistered cfg.url)]
                  else
                    [Event.fatal])))))))

lemma phase1_ok (cfg : Config) (input : List Nat) (i : Int)
    (h : (readPassword cfg input).ok = true) :
    phase1 cfg input i = ([Event.write Msg.passwordPrompt],
      some ((readPassword cfg input).ans, (readPassword cfg input).rest, i - 1)) := by
  rw [phase1]; simp [h]

lemma phase1_fail_exhaust (cfg : Config) (input : List Nat) (i : Int)
    (h : (readPassword cfg input).ok = false) (hi : i - 1 ≤ 0) :
    phase1 cfg input i = ([Event.write Msg.passwordPrompt,
      Event.write (Msg.reason (readPassword cfg input).ans),
      Event.write Msg.passwordFailed], none) := by
  rw [phase1]; simp [h, hi]

lemma phase1_fail_retry (cfg : Config) (input : List Nat) (i : Int)
    (h : (readPassword cfg input).ok = false) (hi : 0 < i - 1) :
    phase1 cfg input i = (Event.write Msg.passwordPrompt ::
      Event.write (Msg.reason (readPassword cfg input).ans) ::
        (phase1 cfg (readPassword cfg input).rest (i - 1)).1,
      (phase1 cfg (readPassword cfg input).rest (i - 1)).2) := by
  rw [phase1]; simp [h, hi]
  omega

lemma phase2_ok (cfg : Config) (passwd : String) (input : List Nat) (i : Int)
    (h : (confirmOutcome cfg passwd input).1 = true) :
    phase2 cfg passwd input i = ([Event.write Msg.repeatPrompt],
      some ((readPassword cfg input).rest, i - 1)) := by
  rw [phase2]; simp [h]

lemma phase2_fail_exhaust (cfg : Config) (passwd : String) (input : List Nat) (i : Int)
    (h : (confirmOutcome cfg passwd input).1 = false) (hi : i - 1 ≤ 0) :
    phase2 cfg passwd input i = ([Event.write Msg.repeatPrompt,
      Event.write (Msg.reason (confirmOutcome cfg passwd input).2),
      Event.write Msg.passwordFailed], none) := by
  rw [phase2]; simp [h, hi]

lemma phase2_fail_retry (cfg : Config) (passwd : String) (input : List Nat) (i : Int)
    (h : (confirmOutcome cfg passwd input).1 = false) (hi : 0 < i - 1) :
    phase2 cfg passwd input i = (Event.write Msg.repeatPrompt ::
      Event.write (Msg.reason (confirmOutcome cfg passwd input).2) ::
        (phase2 cfg passwd (readPassword cfg input).rest (i - 1)).1,
      (phase2 cfg passwd (readPassword cfg input).rest (i - 1)).2) := by
  rw [phase2]; simp [h, hi]
  omega

lemma tokenLoop_match (cfg : Config) (tok : List Nat) (i : Nat) (input : List Nat)
    (h : ¬ tokenMismatch cfg tok input) :
    tokenLoop cfg tok (i + 1) input =
      ([Event.write Msg.tokenBody], some (tokenAttempt cfg input).rest) := by
  simp [tokenLoop, h]

lemma tokenLoop_mismatch_last (cfg : Config) (tok : List Nat) (input : List Nat)
    (h : tokenMismatch cfg tok input) :
    tokenLoop cfg tok 1 input =
      ([Event.write Msg.tokenBody, Event.write Msg.tokenFailed], none) := by
  simp [tokenLoop, h]

lemma tokenLoop_mismatch_retry (cfg : Config) (tok : List Nat) (i : Nat) (input : List Nat)
    (h : tokenMismatch cfg tok input) (hi : i ≠ 0) :
    tokenLoop cfg tok (i + 1) input =
      (Event.write Msg.tokenBody :: Event.write (Msg.tokenRetry i) ::
          (tokenLoop cfg tok i (tokenAttempt cfg input).rest).1,
        (tokenLoop cfg tok i (tokenAttempt cfg input).rest).2) := by
  simp [tokenLoop, h, hi]

lemma readPassword_short (cfg : Config) (input : List Nat)
    (h : (readN input cfg.pmax lettersBytes false).count < cfg.pmin) :
    readPassword cfg input = ⟨false, "Password is too short",
      (readN input cfg.pmax lettersBytes false).rest⟩ := by
  simp [readPassword, h]

lemma readPassword_noMatch (cfg : Config) (input : List Nat)
    (h1 : ¬ (readN input cfg.pmax lettersBytes false).count < cfg.pmin)
    (h2 : cfg.pattern (readN input cfg.pmax lettersBytes false).res = false) :
    readPassword cfg input = ⟨false, "Password does not comply with the rules",
      (readN input cfg.pmax lettersBytes false).rest⟩ := by
  simp [readPassword, h1, h2]

lemma readPassword_accept (cfg : Config) (input : List Nat)
    (h1 : ¬ (readN input cfg.pmax lettersBytes false).count < cfg.pmin)
    (h2 : cfg.pattern (readN input cfg.pmax lettersBytes false).res = true) :
    readPassword cfg input = ⟨true,
      strOfBytes (readN input cfg.pmax lettersBytes false).res,
      (readN input cfg.pmax lettersBytes false).rest⟩ := by
  simp [readPassword, h1, h2]

/-- Whether an event is the printing of a failed-attempt reason (a password
rejection or confirmation mismatch message). -/
def isReasonWrite : Event → Bool
  | Event.write (Msg.reason _) => true
  | _ => false

/-- The number of failed password attempts recorded in an event list: each
failed attempt prints exactly one reason line. -/
def failureWrites (tr : List Event) : Nat := (tr.filter isReasonWrite).length

lemma getLast?_cons_some {α : Type} (a x : α) (L : List α) (h : L.getLast? = some x) :
    (a :: L).getLast? = some x := by
  cases L with
  | nil => simp at h
  | cons b M => rw [List.getLast?_cons_cons]; exact h

lemma phase1_failures (cfg : Config) : ∀ (n : Nat) (i : Int) (input : List Nat),
    i.toNat = n → 1 ≤ i →
    ((phase1 cfg input i).2 = none →
        failureWrites (phase1 cfg input i).1 = i.toNat ∧
        (phase1 cfg input i).1.getLast? = some (Event.write Msg.passwordFailed)) ∧
    (∀ pw rest j, (phase1 cfg input i).2 = some (pw, rest, j) →
        0 ≤ j ∧ j ≤ i - 1 ∧ failureWrites (phase1 cfg input i).1 = (i - 1 - j).toNat) := by
  intro n
  induction n using Nat.strong_induction_on with
  | _ n ih =>
    intro i input hn hi
    by_cases hok : (readPassword cfg input).ok = true
    · rw [phase1_ok cfg input i hok]
      constructor
      · intro h; simp at h
      · intro pw rest j h
        simp only [Option.some.injEq, Prod.mk.injEq] at h
        obtain ⟨-, -, h3⟩ := h
        refine ⟨by omega, by omega, ?_⟩
        simp [failureWrites, isReasonWrite]
        omega
    · have hok' : (readPassword cfg input).ok = false := by simpa using hok
      by_cases hex : i - 1 ≤ 0
      · rw [phase1_fail_exhaust cfg input i hok' hex]
        refine ⟨fun _ => ⟨?_, ?_⟩, fun pw rest j h => by simp at h⟩
        · simp [failureWrites, isReasonWrite]
          omega
        · simp
      · rw [phase1_fail_retry cfg input i hok' (by omega)]
        have hrec := ih (i - 1).toNat (by omega) (i - 1) (readPassword cfg input).rest rfl
          (by omega)
        constructor
        · intro h
          simp only at h
          obtain ⟨hfw, hlast⟩ := hrec.1 h
          refine ⟨?_, ?_⟩
          · simp only [failureWrites, List.filter, isReasonWrite] at hfw ⊢
            simp only [List.length_cons]
            omega
          · exact getLast?_cons_some _ _ _ (getLast?_cons_some _ _ _ hlast)
        · intro pw rest j h
          simp only at h
          obtain ⟨h0, h1, h2⟩ := hrec.2 pw rest j h
          refine ⟨by omega, by omega, ?_⟩
          simp only [failureWrites, List.filter, isReasonWrite] at h2 ⊢
          simp only [List.length_cons]
          omega

lemma phase2_failures (cfg : Config) (passwd : String) :
    ∀ (n : Nat) (i : Int) (input : List Nat), i.toNat = n → 0 ≤ i →
    ((phase2 cfg passwd input i).2 = none →
        failureWrites (phase2 cfg passwd input i).1 = max i.toNat 1 ∧
        (phase2 cfg passwd input i).1.getLast? = some (Event.write Msg.passwordFailed)) := by
  intro n
  induction n using Nat.strong_induction_on with
  | _ n ih =>
    intro i input hn hi h
    by_cases hok : (confirmOutcome cfg passwd input).1 = true
    · rw [phase2_ok cfg passwd input i hok] at h; simp at h
    · have hok' : (confirmOutcome cfg passwd input).1 = false := by simpa using hok
      by_cases hex : i - 1 ≤ 0
      · rw [phase2_fail_exhaust cfg passwd input i hok' hex]
        refine ⟨?_, by simp⟩
        simp [failureWrites, isReasonWrite]
        omega
      · rw [phase2_fail_retry cfg passwd input i hok' (by omega)] at h ⊢
        simp only at h
        obtain ⟨hfw, hlast⟩ := ih (i - 1).toNat (by omega) (i - 1)
          (readPassword cfg input).rest rfl (by omega) h
        refine ⟨?_, ?_⟩
        · simp only [failureWrites, List.filter, isReasonWrite] at hfw ⊢
          simp only [List.length_cons]
          omega
        · exact getLast?_cons_some _ _ _ (getLast?_cons_some _ _ _ hlast)

lemma tokenLoop_events (cfg : Config) (tok : List Nat) :
    ∀ (i : Nat) (input : List Nat) (e : Event), e ∈ (tokenLoop cfg tok i input).1 →
      e = Event.write Msg.tokenBody ∨ (∃ n, e = Event.write (Msg.tokenRetry n)) ∨
        e = Event.write Msg.tokenFailed := by
  intro i
  induction i with
  | zero => intro input e he; simp [tokenLoop] at he
  | succ i ih =>
    intro input e he
    by_cases h : tokenMismatch cfg tok input
    · by_cases hi : i = 0
      · subst hi
        rw [tokenLoop_mismatch_last cfg tok input h] at he
        simp at he
        rcases he with he | he
        · exact Or.inl he
        · exact Or.inr (Or.inr he)
      · rw [tokenLoop_mismatch_retry cfg tok i input h hi] at he
        simp only [List.mem_cons] at he
        rcases he with he | he | he
        · exact Or.inl he
        · exact Or.inr (Or.inl ⟨i, he⟩)
        · exact ih _ e he
    · rw [tokenLoop_match cfg tok i input h] at he
      simp at he
      exact Or.inl he

lemma phase1_events_write (cfg : Config) :
    ∀ (n : Nat) (i : Int) (input : List Nat) (e : Event), i.toNat = n →
      e ∈ (phase1 cfg input i).1 → ∃ m, e = Event.write m := by
  intro n
  induction n using Nat.strong_induction_on with
  | _ n ih =>
    intro i input e hn he
    by_cases hok : (readPassword cfg input).ok = true
    · rw [phase1_ok cfg input i hok] at he
      simp at he
      exact ⟨_, he⟩
    · have hok' : (readPassword cfg input).ok = false := by simpa using hok
      by_cases hex : i - 1 ≤ 0
      · rw [phase1_fail_exhaust cfg input i hok' hex] at he
        simp at he
        rcases he with he | he | he <;> exact ⟨_, he⟩
      · rw [phase1_fail_retry cfg input i hok' (by omega)] at he
        simp only [List.mem_cons] at he
        rcases he with he | he | he
        · exact ⟨_, he⟩
        · exact ⟨_, he⟩
        · exact ih (i - 1).toNat (by omega) (i - 1) _ e rfl he

lemma phase2_events_write (cfg : Config) (passwd : String) :
    ∀ (n : Nat) (i : Int) (input : List Nat) (e : Event), i.toNat = n →
      e ∈ (phase2 cfg passwd input i).1 → ∃ m, e = Event.write m := by
  intro n
  induction n using Nat.strong_induction_on with
  | _ n ih =>
    intro i input e hn he
    by_cases hok : (confirmOutcome cfg passwd input).1 = true
    · rw [phase2_ok cfg passwd input i hok] at he
      simp at he
      exact ⟨_, he⟩
    · have hok' : (confirmOutcome cfg passwd input).1 = false := by simpa using hok
      by_cases hex : i - 1 ≤ 0
      · rw [phase2_fail_exhaust cfg passwd input i hok' hex] at he
        simp at he
        rcases he with he | he | he <;> exact ⟨_, he⟩
      · rw [phase2_fail_retry cfg passwd input i hok' (by omega)] at he
        simp only [List.mem_cons] at he
        rcases he with he | he | he
        · exact ⟨_, he⟩
        · exact ⟨_, he⟩
        · exact ih (i - 1).toNat (by omega) (i - 1) _ e rfl he

lemma collectConfirmed_events_write (cfg : Config) (input : List Nat) (e : Event)
    (he : e ∈ (collectConfirmed cfg input).1) : ∃ m, e = Event.write m := by
  unfold collectConfirmed at he
  cases h : (phase1 cfg input 3).2 with
  | none =>
    rw [h] at he
    simp only at he
    exact phase1_events_write cfg _ 3 input e rfl he
  | some p =>
    obtain ⟨pw, rest, i1⟩ := p
    rw [h] at he
    simp only [List.mem_append] at he
    rcases he with he | he
    · exact phase1_events_write cfg _ 3 input e rfl he
    · exact phase2_events_write cfg pw _ i1 rest e rfl he

lemma mem_left_of_append_eq {α : Type} :
    ∀ (X pre : List α) (Y suf : List α) (c q : α), X ++ Y = pre ++ c :: suf →
      c ∉ X → q ∈ X → q ∈ pre := by
  intro X
  induction X with
  | nil => intro pre Y suf c q h hc hq; simp at hq
  | cons a X ih =>
    intro pre Y suf c q h hc hq
    cases pre with
    | nil =>
      simp only [List.nil_append, List.cons_append, List.cons.injEq] at h
      exact absurd (h.1 ▸ List.mem_cons_self a X) hc
    | cons b pre =>
      simp only [List.cons_append, List.cons.injEq] at h
      obtain ⟨h1, h2⟩ := h
      subst h1
      rcases List.mem_cons.mp hq with hq | hq
      · exact hq ▸ List.mem_cons_self a pre
      · exact List.mem_cons_of_mem a
          (ih pre Y suf c q h2 (fun hm => hc (List.mem_cons_of_mem a hm)) hq)

/-- A small concrete configuration used by witnesses: token length 1, suffix
`@x`, scope `dc=e`, password length bounds 1..2, a pattern accepting
everything, public URL `U`. -/
def cfgW : Config := ⟨1, "@x", "dc=e", 1, 2, fun _ => true, "U"⟩

/-- Collaborators all succeeding, user not yet registered. -/
def worldW : World := ⟨true, true, some false, true, true⟩

/-- Collaborators all succeeding, user already registered. -/
def worldReg : World := ⟨true, true, some true, true, true⟩

/-- C7: for every maximum length, allowed-character set and byte stream, the
line reader returns an accepted count that is at most `L` and equals the
number of filter-passing bytes accepted (appends minus backspace erasures,
as computed by `specCount`) before carriage-return termination, stream error
or truncation at `L`; and a carriage-return byte ends the read and writes
newline plus carriage-return to the stream regardless of the echo flag. -/
theorem readN_count_correct (input : List Nat) (l : Nat) (onlyIn : List Nat)
    (write : Bool) :
    (readN input l onlyIn write).count ≤ l ∧
    (readN input l onlyIn write).count = specCount l onlyIn input 0 ∧
    (∀ (res : List Nat) (cnt : Nat) (out rest : List Nat),
      readNAux l onlyIn write (13 :: rest) res cnt out =
        ⟨res, cnt, out ++ [10, 13], rest⟩) :=
  ⟨readN_count_le input l onlyIn write, readN_count_eq_specCount input l onlyIn write,
    fun res cnt out rest => readNAux_cr l onlyIn write rest res cnt out⟩

/-- C8: a delete/backspace byte received with zero accepted characters is a
no-op (both at the start of a read and at any intermediate state), so the
accepted count never underflows; with at least one accepted character it
decrements the count by one and overwrites the freed buffer slot with a
space placeholder. -/
theorem readN_backspace_safe (l : Nat) (onlyIn : List Nat) (write : Bool)
    (input res out rest : List Nat) (cnt : Nat) :
    (readN (127 :: input) l onlyIn write = readN input l onlyIn write) ∧
    (readNAux l onlyIn write (127 :: rest) res 0 out =
      readNAux l onlyIn write rest res 0 out) ∧
    (0 < cnt → readNAux l onlyIn write (127 :: rest) res cnt out =
      readNAux l onlyIn write rest (res.set (cnt - 1) 32) (cnt - 1)
        (out ++ (if write then [8, 32, 8] else []))) :=
  ⟨readNAux_backspace_zero l onlyIn write input (List.replicate l 0) [],
    readNAux_backspace_zero l onlyIn write rest res out,
    fun h => readNAux_backspace_pos l onlyIn write rest res cnt out h⟩

theorem readN_backspace_safe_witness :
    readNAux 2 [] true (127 :: [13]) [97, 0] 1 [] =
      readNAux 2 [] true [13] ([97, 0].set 0 32) 0 ([] ++ (if true then [8, 32, 8] else [])) :=
  (readN_backspace_safe 2 [] true [] [97, 0] [] [13] 1).2.2 (by decide)

/-- C10: the line reader always returns a buffer of length exactly the
requested maximum `L`, and every position at or beyond the accepted count
holds either the zero byte (never written) or a space placeholder (left by a
backspace), so only the returned count distinguishes short input. -/
theorem readN_buffer_padding (input : List Nat) (l : Nat) (onlyIn : List Nat)
    (write : Bool) :
    (readN input l onlyIn write).res.length = l ∧
    (∀ j, (readN input l onlyIn write).count ≤ j → j < l →
      (readN input l onlyIn write).res[j]? = some 0 ∨
      (readN input l onlyIn write).res[j]? = some 32) := by
  refine ⟨readN_res_length input l onlyIn write, fun j hj hjl => ?_⟩
  rcases readN_padInv input l onlyIn write j hj with h | h | h
  · exact Or.inl h
  · exact Or.inr h
  · exfalso
    rw [List.getElem?_eq_none_iff, readN_res_length] at h
    omega

theorem readN_buffer_padding_witness :
    (readN [97, 13] 2 [] false).res[1]? = some 0 ∨
      (readN [97, 13] 2 [] false).res[1]? = some 32 :=
  (readN_buffer_padding [97, 13] 2 [] false).2 1 (by decide) (by decide)

/-- C3: password validation rejects a candidate whose accepted length is
below the configured minimum or above the configured maximum with the same
too-short reason (the above-maximum case never occurs, since the reader
truncates at the maximum, as the final conjunct shows), rejects a candidate
failing the configured pattern with the rule-violation reason, and accepts
otherwise; the accepted count never exceeds the configured maximum, so no
candidate typed longer than the maximum is ever accepted as entered. -/
theorem readPassword_validation (cfg : Config) (input : List Nat) :
    ((readN input cfg.pmax lettersBytes false).count < cfg.pmin ∨
        cfg.pmax < (readN input cfg.pmax lettersBytes false).count →
      (readPassword cfg input).ok = false ∧
      (readPassword cfg input).ans = "Password is too short") ∧
    (cfg.pmin ≤ (readN input cfg.pmax lettersBytes false).count →
      cfg.pattern (readN input cfg.pmax lettersBytes false).res = false →
      (readPassword cfg input).ok = false ∧
      (readPassword cfg input).ans = "Password does not comply with the rules") ∧
    (cfg.pmin ≤ (readN input cfg.pmax lettersBytes false).count →
      cfg.pattern (readN input cfg.pmax lettersBytes false).res = true →
      (readPassword cfg input).ok = true ∧
      (readPassword cfg input).ans =
        strOfBytes (readN input cfg.pmax lettersBytes false).res) ∧
    (readN input cfg.pmax lettersBytes false).count ≤ cfg.pmax := by
  have hle := readN_count_le input cfg.pmax lettersBytes false
  refine ⟨?_, ?_, ?_, hle⟩
  · intro h
    rcases h with h | h
    · rw [readPassword_short cfg input h]
      exact ⟨rfl, rfl⟩
    · omega
  · intro h1 h2
    rw [readPassword_noMatch cfg input (by omega) h2]
    exact ⟨rfl, rfl⟩
  · intro h1 h2
    rw [readPassword_accept cfg input (by omega) h2]
    exact ⟨rfl, rfl⟩

theorem readPassword_validation_witness :
    ((readPassword cfgW [97, 13]).ok = true ∧
      (readPassword cfgW [97, 13]).ans =
        strOfBytes (readN [97, 13] cfgW.pmax lettersBytes false).res) ∧
    ((readPassword cfgW [13]).ok = false ∧
      (readPassword cfgW [13]).ans = "Password is too short") :=
  ⟨(readPassword_validation cfgW [97, 13]).2.2.1 (by decide) (by decide),
    (readPassword_validation cfgW [13]).1 (Or.inl (by decide))⟩

/-- C4: token verification allows exactly 3 total failed comparisons: an
exact match (full-length read equal byte-for-byte to the issued token) at the
first, second or third attempt succeeds, a mismatch or short read consumes a
retry unit and shows the remaining-attempts message while budget remains,
and the third failure prints the exhausted message and terminates. -/
theorem token_verification_three_attempts (cfg : Config) (tok : List Nat)
    (input : List Nat) :
    (¬ tokenMismatch cfg tok input →
      tokenLoop cfg tok 3 input =
        ([Event.write Msg.tokenBody], some (tokenAttempt cfg input).rest)) ∧
    (tokenMismatch cfg tok input →
      ¬ tokenMismatch cfg tok (tokenAttempt cfg input).rest →
      tokenLoop cfg tok 3 input =
        ([Event.write Msg.tokenBody, Event.write (Msg.tokenRetry 2),
          Event.write Msg.tokenBody],
          some (tokenAttempt cfg (tokenAttempt cfg input).rest).rest)) ∧
    (tokenMismatch cfg tok input →
      tokenMismatch cfg tok (tokenAttempt cfg input).rest →
      ¬ tokenMismatch cfg tok (tokenAttempt cfg (tokenAttempt cfg input).rest).rest →
      tokenLoop cfg tok 3 input =
        ([Event.write Msg.tokenBody, Event.write (Msg.tokenRetry 2),
          Event.write Msg.tokenBody, Event.write (Msg.tokenRetry 1),
          Event.write Msg.tokenBody],
          some (tokenAttempt cfg
            (tokenAttempt cfg (tokenAttempt cfg input).rest).rest).rest)) ∧
    (tokenMismatch cfg tok input →
      tokenMismatch cfg tok (tokenAttempt cfg input).rest →
      tokenMismatch cfg tok (tokenAttempt cfg (tokenAttempt cfg input).rest).rest →
      tokenLoop cfg tok 3 input =
        ([Event.write Msg.tokenBody, Event.write (Msg.tokenRetry 2),
          Event.write Msg.tokenBody, Event.write (Msg.tokenRetry 1),
          Event.write Msg.tokenBody, Event.write Msg.tokenFailed], none)) := by
  refine ⟨fun h1 => ?_, fun h1 h2 => ?_, fun h1 h2 h3 => ?_, fun h1 h2 h3 => ?_⟩
  · simp [tokenLoop, h1]
  · simp [tokenLoop, h1, h2]
  · simp [tokenLoop, h1, h2, h3]
  · simp [tokenLoop, h1, h2, h3]

theorem token_verification_three_attempts_witness :
    (tokenLoop cfgW [97] 3 [97, 13, 98] =
      ([Event.write Msg.tokenBody], some [98])) ∧
    (tokenLoop cfgW [97] 3 [98, 13, 98, 13, 98, 13] =
      ([Event.write Msg.tokenBody, Event.write (Msg.tokenRetry 2),
        Event.write Msg.tokenBody, Event.write (Msg.tokenRetry 1),
        Event.write Msg.tokenBody, Event.write Msg.tokenFailed], none)) :=
  ⟨(token_verification_three_attempts cfgW [97] [97, 13, 98]).1 (by decide),
    (token_verification_three_attempts cfgW [97] [98, 13, 98, 13, 98, 13]).2.2.2
      (by decide) (by decide) (by decide)⟩

lemma collectW_eval :
    collectConfirmed cfgW [97, 13, 98, 13, 98, 13] =
      ([Event.write Msg.passwordPrompt, Event.write Msg.repeatPrompt,
        Event.write (Msg.reason ("Passwords don" ++ apos ++ "t match")),
        Event.write Msg.repeatPrompt,
        Event.write (Msg.reason ("Passwords don" ++ apos ++ "t match")),
        Event.write Msg.passwordFailed], none) := by
  have h1 := phase1_ok cfgW [97, 13, 98, 13, 98, 13] 3 (by decide)
  have h2 := phase2_fail_retry cfgW (readPassword cfgW [97, 13, 98, 13, 98, 13]).ans
    (readPassword cfgW [97, 13, 98, 13, 98, 13]).rest 2 (by decide) (by decide)
  have h3 := phase2_fail_exhaust cfgW (readPassword cfgW [97, 13, 98, 13, 98, 13]).ans
    (readPassword cfgW (readPassword cfgW [97, 13, 98, 13, 98, 13]).rest).rest 1
    (by decide) (by decide)
  simp only [collectConfirmed, h1, (by norm_num : (3:Int) - 1 = 2),
    (by norm_num : (2:Int) - 1 = 1), h2, h3]
  decide

/-- C2 counterexample: a first password accepted on the very first attempt
followed by two mismatching confirmations terminates the session with
`PASSWORD_FAILED` although only two failed attempts have accumulated — the
counter is also decremented by the successful first-phase attempt, refuting
"decremented only on a failed attempt" and "terminates exactly when 3
failures have accumulated". -/
theorem password_budget_counterexample :
    (collectConfirmed cfgW [97, 13, 98, 13, 98, 13]).2 = none ∧
    failureWrites (collectConfirmed cfgW [97, 13, 98, 13, 98, 13]).1 = 2 ∧
    (collectConfirmed cfgW [97, 13, 98, 13, 98, 13]).1.getLast? =
      some (Event.write Msg.passwordFailed) := by
  rw [collectW_eval]
  refine ⟨rfl, by decide, rfl⟩

/-- C2 amended: the two password phases share one counter starting at 3, but
it is decremented on every attempt — a successful first-phase attempt hands
counter `i - 1` to the confirmation phase — and the session terminates with
the password-failure message when a failed attempt leaves the counter at or
below zero, which altogether happens after 3 accumulated failures when no
successful attempt intervened (or the first phase succeeded on its last
unit), and after only 2 accumulated failures otherwise. -/
theorem password_budget_amended (cfg : Config) (input : List Nat) :
    ((readPassword cfg input).ok = true → ∀ i : Int,
      phase1 cfg input i = ([Event.write Msg.passwordPrompt],
        some ((readPassword cfg input).ans, (readPassword cfg input).rest, i - 1))) ∧
    ((collectConfirmed cfg input).2 = none →
      (failureWrites (collectConfirmed cfg input).1 = 2 ∨
        failureWrites (collectConfirmed cfg input).1 = 3) ∧
      (collectConfirmed cfg input).1.getLast? =
        some (Event.write Msg.passwordFailed)) := by
  constructor
  · intro h i
    exact phase1_ok cfg input i h
  · intro h
    unfold collectConfirmed at h ⊢
    cases hp : (phase1 cfg input 3).2 with
    | none =>
      obtain ⟨hfw, hlast⟩ := (phase1_failures cfg 3 3 input rfl (by norm_num)).1 hp
      refine ⟨Or.inr (by simpa using hfw), by simpa using hlast⟩
    | some p =>
      obtain ⟨pw, rest, j⟩ := p
      rw [hp] at h
      dsimp only at h
      rw [Option.map_eq_none'] at h
      obtain ⟨h0, h1, h2⟩ := (phase1_failures cfg 3 3 input rfl (by norm_num)).2 pw rest j hp
      obtain ⟨hfw2, hlast2⟩ := phase2_failures cfg pw j.toNat j rest rfl h0 h
      constructor
      · simp only [failureWrites, List.filter_append, List.length_append] at h2 hfw2 ⊢
        omega
      · rw [List.getLast?_append_of_ne_nil]
        · exact hlast2
        · intro hn
          rw [hn] at hlast2
          simp at hlast2

theorem password_budget_amended_witness :
    (failureWrites (collectConfirmed cfgW [97, 13, 98, 13, 98, 13]).1 = 2 ∨
      failureWrites (collectConfirmed cfgW [97, 13, 98, 13, 98, 13]).1 = 3) ∧
    (collectConfirmed cfgW [97, 13, 98, 13, 98, 13]).1.getLast? =
      some (Event.write Msg.passwordFailed) :=
  (password_budget_amended cfgW [97, 13, 98, 13, 98, 13]).2 (by rw [collectW_eval])

/-- C9: in both password phases the counter is decremented on every attempt
and exhaustion is checked only after a failed attempt, so a valid (and, in
phase two, matching) entry is accepted even when the counter is zero or
negative at the start of the attempt; a first password accepted on the last
budget unit hands counter 0 to the confirmation phase, which then runs
exactly one attempt whose outcome decides the session. -/
theorem password_late_acceptance (cfg : Config) (passwd : String) (input : List Nat)
    (i : Int) :
    (i ≤ 0 → (confirmOutcome cfg passwd input).1 = true →
      phase2 cfg passwd input i = ([Event.write Msg.repeatPrompt],
        some ((readPassword cfg input).rest, i - 1))) ∧
    ((readPassword cfg input).ok = true →
      phase1 cfg input 1 = ([Event.write Msg.passwordPrompt],
        some ((readPassword cfg input).ans, (readPassword cfg input).rest, 0))) ∧
    ((confirmOutcome cfg passwd input).1 = true →
      phase2 cfg passwd input 0 = ([Event.write Msg.repeatPrompt],
        some ((readPassword cfg input).rest, -1))) ∧
    ((confirmOutcome cfg passwd input).1 = false →
      phase2 cfg passwd input 0 = ([Event.write Msg.repeatPrompt,
        Event.write (Msg.reason (confirmOutcome cfg passwd input).2),
        Event.write Msg.passwordFailed], none)) := by
  refine ⟨fun _ h => phase2_ok cfg passwd input i h, fun h => ?_, fun h => ?_, fun h => ?_⟩
  · rw [phase1_ok cfg input 1 h]
    norm_num
  · rw [phase2_ok cfg passwd input 0 h]
    norm_num
  · rw [phase2_fail_exhaust cfg passwd input 0 h (by norm_num)]

theorem password_late_acceptance_witness :
    phase2 cfgW (strOfBytes [97, 0]) [97, 13] 0 =
      ([Event.write Msg.repeatPrompt], some ([], -1)) :=
  (password_late_acceptance cfgW (strOfBytes [97, 0]) [97, 13] 0).2.2.1 (by decide)

lemma tokenLoop_not_mem (cfg : Config) (tok : List Nat) (i : Nat) (input : List Nat)
    (e : Event) (h1 : e ≠ Event.write Msg.tokenBody)
    (h2 : ∀ n, e ≠ Event.write (Msg.tokenRetry n))
    (h3 : e ≠ Event.write Msg.tokenFailed) : e ∉ (tokenLoop cfg tok i input).1 := by
  intro hm
  rcases tokenLoop_events cfg tok i input e hm with h | ⟨n, h⟩ | h
  exacts [h1 h, h2 n h, h3 h]

/-- C5: whenever the existence query answers that the user is already
registered, the session performs no directory add, no password-set and no
register call, issues no password prompt, and — if the query was reached at
all — ends with the already-registered message. -/
theorem already_registered_terminal (cfg : Config) (user : String) (tok : List Nat)
    (w : World) (input : List Nat) (hex : w.userExists = some true) :
    (∀ d em, Event.addOp d em ∉ handler cfg user tok w input) ∧
    (∀ d pw, Event.passwordSetOp d pw ∉ handler cfg user tok w input) ∧
    (∀ u m pw, Event.registerCall u m pw ∉ handler cfg user tok w input) ∧
    Event.write Msg.passwordPrompt ∉ handler cfg user tok w input ∧
    Event.write Msg.repeatPrompt ∉ handler cfg user tok w input ∧
    (Event.queryExists user ∈ handler cfg user tok w input →
      (handler cfg user tok w input).getLast? =
        some (Event.write (Msg.alreadyRegistered cfg.url))) := by
  unfold handler
  by_cases hc : (readN input 1 consentFilter true).count < 1 ∨
      (readN input 1 consentFilter true).res.headD 0 ≠ 121
  · rw [if_pos hc]
    refine ⟨?_, ?_, ?_, ?_, ?_, ?_⟩ <;> simp
  · rw [if_neg hc]
    by_cases hm : w.mailOk = false
    · rw [if_pos hm]
      refine ⟨?_, ?_, ?_, ?_, ?_, ?_⟩ <;> simp
    · rw [if_neg hm]
      cases ht : (tokenLoop cfg tok 3 (readN input 1 consentFilter true).rest).2 with
      | none =>
        refine ⟨?_, ?_, ?_, ?_, ?_, ?_⟩ <;>
            simp only [List.mem_cons, List.mem_append, List.not_mem_nil, or_false]
        · intro d em h
          rcases h with h | h
          · simp at h
          · exact tokenLoop_not_mem cfg tok 3 _ _ (by simp) (fun n => by simp) (by simp) h
        · intro d pw h
          rcases h with h | h
          · simp at h
          · exact tokenLoop_not_mem cfg tok 3 _ _ (by simp) (fun n => by simp) (by simp) h
        · intro u m pw h
          rcases h with h | h
          · simp at h
          · exact tokenLoop_not_mem cfg tok 3 _ _ (by simp) (fun n => by simp) (by simp) h
        · intro h
          rcases h with h | h
          · simp at h
          · exact tokenLoop_not_mem cfg tok 3 _ _ (by simp) (fun n => by simp) (by simp) h
        · intro h
          rcases h with h | h
          · simp at h
          · exact tokenLoop_not_mem cfg tok 3 _ _ (by simp) (fun n => by simp) (by simp) h
        · intro h
          rcases h with h | h
          · simp at h
          · exact absurd h (tokenLoop_not_mem cfg tok 3 _ _ (by simp) (fun n => by simp)
              (by simp))
      | some rest2 =>
        dsimp only
        by_cases hb : w.bindOk = false
        · rw [if_pos hb]
          refine ⟨?_, ?_, ?_, ?_, ?_, ?_⟩ <;>
              simp only [List.mem_cons, List.mem_append, List.mem_singleton,
                List.not_mem_nil, or_false]
          · intro d em h
            rcases h with h | h | h
            · simp at h
            · exact tokenLoop_not_mem cfg tok 3 _ _ (by simp) (fun n => by simp) (by simp) h
            · simp at h
          · intro d pw h
            rcases h with h | h | h
            · simp at h
            · exact tokenLoop_not_mem cfg tok 3 _ _ (by simp) (fun n => by simp) (by simp) h
            · simp at h
          · intro u m pw h
            rcases h with h | h | h
            · simp at h
            · exact tokenLoop_not_mem cfg tok 3 _ _ (by simp) (fun n => by simp) (by simp) h
            · simp at h
          · intro h
            rcases h with h | h | h
            · simp at h
            · exact tokenLoop_not_mem cfg tok 3 _ _ (by simp) (fun n => by simp) (by simp) h
            · simp at h
          · intro h
            rcases h with h | h | h
            · simp at h
            · exact tokenLoop_not_mem cfg tok 3 _ _ (by simp) (fun n => by simp) (by simp) h
            · simp at h
          · intro h
            rcases h with h | h | h
            · simp at h
            · exact absurd h (tokenLoop_not_mem cfg tok 3 _ _ (by simp) (fun n => by simp)
                (by simp))
            · simp at h
        · rw [if_neg hb, hex]
          dsimp only
          refine ⟨?_, ?_, ?_, ?_, ?_, ?_⟩
          · intro d em h
            simp only [List.mem_cons, List.mem_append, List.mem_singleton] at h
            rcases h with h | h | h | h
            · simp at h
            · exact tokenLoop_not_mem cfg tok 3 _ _ (by simp) (fun n => by simp) (by simp) h
            · simp at h
            · simp at h
          · intro d pw h
            simp only [List.mem_cons, List.mem_append, List.mem_singleton] at h
            rcases h with h | h | h | h
            · simp at h
            · exact tokenLoop_not_mem cfg tok 3 _ _ (by simp) (fun n => by simp) (by simp) h
            · simp at h
            · simp at h
          · intro u m pw h
            simp only [List.mem_cons, List.mem_append, List.mem_singleton] at h
            rcases h with h | h | h | h
            · simp at h
            · exact tokenLoop_not_mem cfg tok 3 _ _ (by simp) (fun n => by simp) (by simp) h
            · simp at h
            · simp at h
          · intro h
            simp only [List.mem_cons, List.mem_append, List.mem_singleton] at h
            rcases h with h | h | h | h
            · simp at h
            · exact tokenLoop_not_mem cfg tok 3 _ _ (by simp) (fun n => by simp) (by simp) h
            · simp at h
            · simp at h
          · intro h
            simp only [List.mem_cons, List.mem_append, List.mem_singleton] at h
            rcases h with h | h | h | h
            · simp at h
            · exact tokenLoop_not_mem cfg tok 3 _ _ (by simp) (fun n => by simp) (by simp) h
            · simp at h
            · simp at h
          · intro h
            rw [show Event.write (Msg.welcome (user ++ cfg.toSuffix)) ::
                ((tokenLoop cfg tok 3 (readN input 1 consentFilter true).rest).1 ++
                  Event.queryExists user ::
                    [Event.write (Msg.alreadyRegistered cfg.url)]) =
              (Event.write (Msg.welcome (user ++ cfg.toSuffix)) ::
                ((tokenLoop cfg tok 3 (readN input 1 consentFilter true).rest).1 ++
                  [Event.queryExists user])) ++
                [Event.write (Msg.alreadyRegistered cfg.url)] by simp]
            exact List.getLast?_concat _

theorem already_registered_terminal_witness :
    (handler cfgW "u" [97] worldReg [121, 13, 97, 13]).getLast? =
      some (Event.write (Msg.alreadyRegistered cfgW.url)) :=
  (already_registered_terminal cfgW "u" [97] worldReg [121, 13, 97, 13] rfl).2.2.2.2.2
    (by decide)

/-- Whether an event is a call to `register`. -/
def isRegisterCall : Event → Bool
  | Event.registerCall _ _ _ => true
  | _ => false

lemma tokenLoop_no_rc (cfg : Config) (tok : List Nat) (i : Nat) (input : List Nat)
    (u m p : String) : Event.registerCall u m p ∉ (tokenLoop cfg tok i input).1 :=
  tokenLoop_not_mem cfg tok i input _ (by simp) (fun n => by simp) (by simp)

lemma collect_no_rc (cfg : Config) (input : List Nat) (u m p : String) :
    Event.registerCall u m p ∉ (collectConfirmed cfg input).1 := by
  intro hm
  obtain ⟨mm, hmm⟩ := collectConfirmed_events_write cfg input _ hm
  simp at hmm

lemma filter_rc_tokenLoop (cfg : Config) (tok : List Nat) (i : Nat) (input : List Nat) :
    (tokenLoop cfg tok i input).1.filter isRegisterCall = [] := by
  rw [List.filter_eq_nil_iff]
  intro e he
  rcases tokenLoop_events cfg tok i input e he with h | ⟨n, h⟩ | h <;>
    subst h <;> simp [isRegisterCall]

lemma filter_rc_collect (cfg : Config) (input : List Nat) :
    (collectConfirmed cfg input).1.filter isRegisterCall = [] := by
  rw [List.filter_eq_nil_iff]
  intro e he
  obtain ⟨m, hm⟩ := collectConfirmed_events_write cfg input e he
  subst hm
  simp [isRegisterCall]

lemma registerOps_no_rc (cfg : Config) (addOk : Bool) (uid email passwd : String)
    (u m p : String) : Event.registerCall u m p ∉ registerOps cfg addOk uid email passwd := by
  cases addOk <;> simp [registerOps]

lemma filter_rc_registerOps (cfg : Config) (addOk : Bool) (uid email passwd : String) :
    (registerOps cfg addOk uid email passwd).filter isRegisterCall = [] := by
  cases addOk <;> simp [registerOps, isRegisterCall]

/-- The handler trace either contains no register call at all, or it splits as
`X ++ registerCall :: Y` where the existence query lies in `X` and no other
register call occurs. -/
lemma handler_rc_structure (cfg : Config) (user : String) (tok : List Nat) (w : World)
    (input : List Nat) :
    (∀ u m p, Event.registerCall u m p ∉ handler cfg user tok w input) ∨
    (∃ X Y passwd,
      handler cfg user tok w input =
        X ++ Event.registerCall user (user ++ cfg.toSuffix) passwd :: Y ∧
      Event.queryExists user ∈ X ∧
      (∀ u m p, Event.registerCall u m p ∉ X) ∧
      (∀ u m p, Event.registerCall u m p ∉ Y)) := by
  unfold handler
  by_cases hc : (readN input 1 consentFilter true).count < 1 ∨
      (readN input 1 consentFilter true).res.headD 0 ≠ 121
  · rw [if_pos hc]
    left; intro u m p; simp
  · rw [if_neg hc]
    by_cases hm : w.mailOk = false
    · rw [if_pos hm]
      left; intro u m p; simp
    · rw [if_neg hm]
      cases ht : (tokenLoop cfg tok 3 (readN input 1 consentFilter true).rest).2 with
      | none =>
        left; intro u m p
        simp only [List.mem_cons, List.mem_append, List.not_mem_nil, or_false]
        rintro (h | h)
        · simp at h
        · exact tokenLoop_no_rc cfg tok 3 _ u m p h
      | some rest2 =>
        dsimp only
        by_cases hb : w.bindOk = false
        · rw [if_pos hb]
          left; intro u m p
          simp only [List.mem_cons, List.mem_append, List.mem_singleton]
          rintro (h | h | h)
          · simp at h
          · exact tokenLoop_no_rc cfg tok 3 _ u m p h
          · simp at h
        · rw [if_neg hb]
          cases hex : w.userExists with
          | none =>
            left; intro u m p
            simp only [List.mem_cons, List.mem_append, List.mem_singleton]
            rintro (h | h | h | h)
            · simp at h
            · exact tokenLoop_no_rc cfg tok 3 _ u m p h
            · simp at h
            · simp at h
          | some b =>
            cases b with
            | true =>
              left; intro u m p
              simp only [List.mem_cons, List.mem_append, List.mem_singleton]
              rintro (h | h | h | h)
              · simp at h
              · exact tokenLoop_no_rc cfg tok 3 _ u m p h
              · simp at h
              · simp at h
            | false =>
              dsimp only
              cases hcol : (collectConfirmed cfg rest2).2 with
              | none =>
                left; intro u m p
                simp only [List.mem_cons, List.mem_append, List.not_mem_nil, or_false,
                  List.append_nil]
                rintro (h | h | h | h | h | h)
                · simp at h
                · exact tokenLoop_no_rc cfg tok 3 _ u m p h
                · simp at h
                · simp at h
                · simp at h
                · exact collect_no_rc cfg rest2 u m p h
              | some pp =>
                obtain ⟨passwd, rest4, i4⟩ := pp
                right
                refine ⟨Event.write (Msg.welcome (user ++ cfg.toSuffix)) ::
                    ((tokenLoop cfg tok 3 (readN input 1 consentFilter true).rest).1 ++
                      Event.queryExists user :: Event.write Msg.notRegistered ::
                      Event.write (Msg.passwordRules cfg.pmin cfg.pmax) ::
                      ((collectConfirmed cfg rest2).1 ++ [Event.write Msg.registering])),
                  registerOps cfg w.addOk user (user ++ cfg.toSuffix) passwd ++
                    (if w.addOk && w.pwModOk then
                      [Event.write (Msg.alreadyRegistered cfg.url)]
                    else [Event.fatal]), passwd, ?_, ?_, ?_, ?_⟩
                · simp
                · simp
                · intro u m p
                  simp only [List.mem_cons, List.mem_append, List.mem_singleton]
                  rintro (h | h | h | h | h | h | h)
                  · simp at h
                  · exact tokenLoop_no_rc cfg tok 3 _ u m p h
                  · simp at h
                  · simp at h
                  · simp at h
                  · exact collect_no_rc cfg rest2 u m p h
                  · simp at h
                · intro u m p
                  simp only [List.mem_append]
                  rintro (h | h)
                  · exact registerOps_no_rc cfg w.addOk user _ passwd u m p h
                  · by_cases hf : (w.addOk && w.pwModOk) = true
                    · rw [if_pos hf] at h; simp at h
                    · rw [if_neg hf] at h; simp at h

lemma filter_rc_eq_nil_of_no {L : List Event}
    (h : ∀ u m p, Event.registerCall u m p ∉ L) : L.filter isRegisterCall = [] := by
  rw [List.filter_eq_nil_iff]
  intro e he hc
  cases e <;> simp [isRegisterCall] at hc
  exact h _ _ _ he

/-- C6: the existence query is performed before any register call, a session
never registers more than one directory entry, and when the user does not
exist and password collection succeeds, register is called exactly once, with
the identity, the identity plus the configured mail suffix, and the confirmed
password. -/
theorem register_invoked_once (cfg : Config) (user : String) (tok : List Nat)
    (w : World) (input : List Nat) :
    ((handler cfg user tok w input).filter isRegisterCall).length ≤ 1 ∧
    (∀ pre u m p suf, handler cfg user tok w input =
        pre ++ Event.registerCall u m p :: suf → Event.queryExists user ∈ pre) ∧
    (∀ rest2 passwd rest4 i4,
      ¬((readN input 1 consentFilter true).count < 1 ∨
          (readN input 1 consentFilter true).res.headD 0 ≠ 121) →
      w.mailOk = true →
      (tokenLoop cfg tok 3 (readN input 1 consentFilter true).rest).2 = some rest2 →
      w.bindOk = true →
      w.userExists = some false →
      (collectConfirmed cfg rest2).2 = some (passwd, rest4, i4) →
      (handler cfg user tok w input).filter isRegisterCall =
        [Event.registerCall user (user ++ cfg.toSuffix) passwd]) := by
  refine ⟨?_, ?_, ?_⟩
  · rcases handler_rc_structure cfg user tok w input with h | ⟨X, Y, passwd, hEq, hqe, hX, hY⟩
    · rw [filter_rc_eq_nil_of_no h]
      simp
    · rw [hEq, List.filter_append, filter_rc_eq_nil_of_no hX]
      simp [List.filter_cons, isRegisterCall, filter_rc_eq_nil_of_no hY]
  · intro pre u m p suf hsplit
    rcases handler_rc_structure cfg user tok w input with h | ⟨X, Y, passwd, hEq, hqe, hX, hY⟩
    · exfalso
      apply h u m p
      rw [hsplit]
      exact List.mem_append_right pre (List.mem_cons_self _ _)
    · exact mem_left_of_append_eq X pre
        (Event.registerCall user (user ++ cfg.toSuffix) passwd :: Y) suf
        (Event.registerCall u m p) (Event.queryExists user)
        (hEq.symm.trans hsplit) (hX u m p) hqe
  · intro rest2 passwd rest4 i4 hc hm ht hb hex hcol
    unfold handler
    rw [if_neg hc, if_neg (by simp [hm]), ht]
    dsimp only
    rw [if_neg (by simp [hb]), hex]
    dsimp only
    rw [hcol]
    dsimp only
    simp only [List.filter_cons, List.filter_append, filter_rc_tokenLoop, filter_rc_collect,
      filter_rc_registerOps, isRegisterCall]
    split <;> simp_all
    split <;> simp [isRegisterCall]

lemma collectW2_eval :
    collectConfirmed cfgW [97, 13, 97, 13] =
      ([Event.write Msg.passwordPrompt, Event.write Msg.repeatPrompt],
        some (strOfBytes [97, 0], [], 1)) := by
  have h1 := phase1_ok cfgW [97, 13, 97, 13] 3 (by decide)
  have h2 := phase2_ok cfgW (readPassword cfgW [97, 13, 97, 13]).ans
    (readPassword cfgW [97, 13, 97, 13]).rest 2 (by decide)
  simp only [collectConfirmed, h1, (by norm_num : (3:Int) - 1 = 2), h2]
  decide

theorem register_invoked_once_witness :
    (handler cfgW "u" [97] worldW [121, 13, 97, 13, 97, 13, 97, 13]).filter isRegisterCall =
      [Event.registerCall "u" ("u" ++ cfgW.toSuffix) (strOfBytes [97, 0])] :=
  (register_invoked_once cfgW "u" [97] worldW [121, 13, 97, 13, 97, 13, 97, 13]).2.2
    [97, 13, 97, 13] (strOfBytes [97, 0]) [] 1 (by decide) rfl (by decide) rfl rfl
    (by rw [collectW2_eval])

lemma handlerW_eval :
    handler cfgW "u" [97] worldW [121, 13, 97, 13, 97, 13, 97, 13] =
      [Event.write (Msg.welcome "u@x"), Event.write Msg.tokenBody, Event.queryExists "u",
        Event.write Msg.notRegistered, Event.write (Msg.passwordRules 1 2),
        Event.write Msg.passwordPrompt, Event.write Msg.repeatPrompt,
        Event.write Msg.registering,
        Event.registerCall "u" "u@x" (strOfBytes [97, 0]),
        Event.addOp "uid=u,dc=e" "u@x",
        Event.passwordSetOp "uid=u,dc=e" (strOfBytes [97, 0]),
        Event.write (Msg.alreadyRegistered "U")] := by
  unfold handler
  rw [if_neg (by decide :
    ¬((readN [121, 13, 97, 13, 97, 13, 97, 13] 1 consentFilter true).count < 1 ∨
      (readN [121, 13, 97, 13, 97, 13, 97, 13] 1 consentFilter true).res.headD 0 ≠ 121))]
  rw [if_neg (by decide : ¬(worldW.mailOk = false))]
  rw [show (tokenLoop cfgW [97] 3
      (readN [121, 13, 97, 13, 97, 13, 97, 13] 1 consentFilter true).rest).2 =
    some [97, 13, 97, 13] from by decide]
  dsimp only
  rw [if_neg (by decide : ¬(worldW.bindOk = false))]
  rw [show worldW.userExists = some false from rfl]
  dsimp only
  rw [collectW2_eval]
  dsimp only
  decide

/-- C1 (code bug): after a successful registration the session's terminal
message is the ALREADY_REGISTERED template of sshauth.go:53 (emitted at
sshauth.go:330), not the REGISTRATION_SUCCESS template of sshauth.go:56,
which is never written by any event of the session. -/
theorem registration_success_message_never_emitted :
    (handler cfgW "u" [97] worldW [121, 13, 97, 13, 97, 13, 97, 13]).getLast? =
      some (Event.write (Msg.alreadyRegistered "U")) ∧
    renderMsg (Msg.alreadyRegistered "U") ≠ REGISTRATION_SUCCESS "U" ∧
    (∀ e ∈ handler cfgW "u" [97] worldW [121, 13, 97, 13, 97, 13, 97, 13],
      ∀ m, e = Event.write m → renderMsg m ≠ REGISTRATION_SUCCESS "U") := by
  refine ⟨by rw [handlerW_eval]; rfl, by decide, ?_⟩
  rw [handlerW_eval]
  intro e he m hm
  subst hm
  simp only [List.mem_cons, List.not_mem_nil, or_false, Event.write.injEq] at he
  rcases he with rfl | rfl | he | rfl | rfl | rfl | rfl | rfl | he | he | he | rfl <;>
    first
      | decide
      | simp at he
